import Mathlib

/-!
# Shallow embedding of the shopping-backend order placement core

This file embeds the order-placement service of `src/app.js` (routes
`POST /orders`, `GET /orders/:id`, `DELETE /products/:id`), the relational
state it acts on, the error-to-HTTP mapping of `asyncHandler`, and the
cookie-token encode/decode of `POST /auth/login` and the `auth` middleware.

Conventions of the embedding:
* ids are `Nat` (the database uses opaque unique strings; only equality of
  ids matters to the embedded code);
* `Product.stock` is `Int`: the schema puts no check constraint on stock,
  so the embedding must be able to represent a negative stored value;
* quantities are `Nat`, unit prices are `ℚ` (JavaScript numbers on the
  values the code manipulates: exact decimal arithmetic);
* each Prisma call becomes a pure function on an explicit `DB` state;
  `prisma.$transaction` becomes sequential execution of a statement list
  with rollback to the caller's state on any failure, which is the
  transactional guarantee the code relies on;
* thrown errors become an `ApiError` value paired with the unchanged state.
-/

deriving instance DecidableEq for Except

/-- A row of the `Product` table: `id`, `stock`, `price`.
`stock` is `Int` because no database constraint prevents a negative value. -/
structure Product where
  id : Nat
  stock : Int
  price : ℚ
  deriving DecidableEq, Repr

/-- One requested line item of `POST /orders` (`CreateOrder` shape):
`{ productId, quantity, unitPrice }`. -/
structure OrderItemReq where
  productId : Nat
  quantity : Nat
  unitPrice : ℚ
  deriving DecidableEq, Repr

/-- A row of the `OrderItem` table: belongs to one order, references one
product, carries the quantity and the unit price captured at order time. -/
structure OrderItemRow where
  orderId : Nat
  productId : Nat
  quantity : Nat
  unitPrice : ℚ
  deriving DecidableEq, Repr

/-- A row of the `Order` table (id and owning user). -/
structure OrderRow where
  id : Nat
  userId : Nat
  deriving DecidableEq, Repr

/-- The relational state the order-placement core reads and writes:
users (only their ids matter here), products, orders and order items. -/
structure DB where
  users : List Nat
  products : List Product
  orders : List OrderRow
  orderItems : List OrderItemRow
  deriving DecidableEq, Repr

/-- Errors surfaced by the embedded handlers.
`insufficientStock` is the `Error("Insufficient Stock")` thrown by
`POST /orders`; `fkViolation` is a foreign-key violation raised by the
database (Prisma error `P2003`, e.g. the `ON DELETE RESTRICT` constraints
of `OrderItem`); `recordNotFound` is Prisma error `P2025`. -/
inductive ApiError where
  | insufficientStock
  | fkViolation
  | recordNotFound
  deriving DecidableEq, Repr

/-- The HTTP status `asyncHandler` maps each error to: `P2025` becomes 404;
a generic `Error` and a `P2003` foreign-key violation are passed to `next`
and become 500. -/
def httpStatus : ApiError → Nat
  | .insufficientStock => 500
  | .fkViolation => 500
  | .recordNotFound => 404

/-- `getQuantity(productId)` of `POST /orders`: `orderItems.find(...)` takes
the FIRST line item whose `productId` matches and returns its quantity.
(In the JavaScript, a missing match would be a `TypeError`; every call site
passes an id that occurs in `orderItems`, so the `0` default is dead.) -/
def getQuantity (orderItems : List OrderItemReq) (productId : Nat) : Nat :=
  match orderItems.find? (fun orderItem => orderItem.productId == productId) with
  | some orderItem => orderItem.quantity
  | none => 0

/-- `isSufficientStock` of `POST /orders`: every LOADED product must have
`stock >= getQuantity(id)`. Products are loaded by
`findMany({ where: { id: { in: productIds } } })`, so a requested id with
no matching product row is simply not checked. -/
def isSufficientStock (products : List Product) (orderItems : List OrderItemReq) : Bool :=
  products.all (fun product => decide ((getQuantity orderItems product.id : Int) ≤ product.stock))

/-- The `findMany({ where: { id: { in: productIds } } })` read: the product
rows whose id occurs among the requested ids (each row once). -/
def loadProducts (db : DB) (orderItems : List OrderItemReq) : List Product :=
  db.products.filter (fun product => (orderItems.map (fun i => i.productId)).contains product.id)

/-- The stock check `POST /orders` performs before building its transaction:
load the referenced products, then `isSufficientStock`. -/
def checkStock (db : DB) (orderItems : List OrderItemReq) : Bool :=
  isSufficientStock (loadProducts db orderItems) orderItems

/-- The `OrderItem` row the nested `orderItems: { create: ... }` inserts for
one requested line item of the new order `oid`. -/
def toRow (oid : Nat) (item : OrderItemReq) : OrderItemRow :=
  ⟨oid, item.productId, item.quantity, item.unitPrice⟩

/-- One statement of the `prisma.$transaction` array of `POST /orders`:
the `order.create` with nested `orderItems` create, or one
`product.update` decrementing a product's stock. -/
inductive Stmt where
  | createOrder (userId : Nat) (oid : Nat) (items : List OrderItemReq)
  | updateStock (productId : Nat) (q : Nat)
  deriving DecidableEq, Repr

/-- Database semantics of one statement.
`createOrder` inserts the order row and one `OrderItem` row per requested
line item; the foreign keys of `Order.userId` and `OrderItem.productId`
must resolve or the database raises `P2003`. `updateStock` decrements the
stock of the product with the given id (every row with that id; ids are
unique in a well-formed state), or raises `P2025` when no row matches. -/
def runStmt (db : DB) : Stmt → Except ApiError DB
  | .createOrder userId oid items =>
    if userId ∈ db.users then
      if items.all (fun item => db.products.any (fun p => p.id == item.productId)) then
        .ok { db with
                orders := db.orders ++ [⟨oid, userId⟩],
                orderItems := db.orderItems ++ items.map (toRow oid) }
      else .error .fkViolation
    else .error .fkViolation
  | .updateStock productId q =>
    if db.products.any (fun p => p.id == productId) then
      .ok { db with
              products := db.products.map (fun p =>
                if p.id = productId then { p with stock := p.stock - q } else p) }
    else .error .recordNotFound

/-- `prisma.$transaction([...])`: run the statements in order on the shared
state; the first failure aborts the whole unit (the caller keeps its
original state: rollback). -/
def runTransaction (db : DB) : List Stmt → Except ApiError DB
  | [] => .ok db
  | stmt :: rest =>
    match runStmt db stmt with
    | .ok db1 => runTransaction db1 rest
    | .error e => .error e

/-- The statement array `POST /orders` passes to `prisma.$transaction`:
the `order.create`, then ONE `updateStock` per entry of
`productIds = orderItems.map(i => i.productId)` — one per line item
occurrence, each decrementing by `getQuantity(productId)`. -/
def orderStmts (userId oid : Nat) (orderItems : List OrderItemReq) : List Stmt :=
  Stmt.createOrder userId oid orderItems ::
    (orderItems.map (fun i => i.productId)).map
      (fun productId => Stmt.updateStock productId (getQuantity orderItems productId))

/-- The JSON body a successful order route responds with: the order row,
its included `orderItems`, and — only where the code sets it — a `total`
field (`none` models an absent property). -/
structure OrderResponse where
  order : OrderRow
  orderItems : List OrderItemRow
  total : Option ℚ
  deriving DecidableEq, Repr

/-- The `prisma.$transaction` call site of `POST /orders`: on success the
route answers 201 with the created order and its items (no `total` field);
on failure the state is rolled back and the error is rethrown. -/
def commitOrder (db : DB) (userId : Nat) (orderItems : List OrderItemReq) (oid : Nat) :
    Except ApiError DB :=
  runTransaction db (orderStmts userId oid orderItems)

/-- The `POST /orders` handler after `assert(req.body, CreateOrder)`:
load the referenced products, check `isSufficientStock` (throwing
`Error("Insufficient Stock")` otherwise), then run the transaction.
`oid` stands for the generated id of the new order. The returned pair is
(response or error, resulting state). -/
def placeOrder (db : DB) (userId : Nat) (orderItems : List OrderItemReq) (oid : Nat) :
    Except ApiError OrderResponse × DB :=
  if checkStock db orderItems then
    match commitOrder db userId orderItems oid with
    | .ok db1 => (.ok ⟨⟨oid, userId⟩, orderItems.map (toRow oid), none⟩, db1)
    | .error e => (.error e, db)
  else (.error .insufficientStock, db)

/-- The total loop of `GET /orders/:id`: `total = 0` then
`total += orderItem.unitPrice * orderItem.quantity` over the included
order items. -/
def getOrderTotal (items : List OrderItemRow) : ℚ :=
  items.foldl (fun total orderItem => total + orderItem.unitPrice * orderItem.quantity) 0

/-- The `GET /orders/:id` handler: `findUniqueOrThrow` (Prisma `P2025` when
absent) with included `orderItems`, then attach the computed `total`. -/
def getOrder (db : DB) (oid : Nat) : Except ApiError OrderResponse :=
  match db.orders.find? (fun o => o.id == oid) with
  | none => .error .recordNotFound
  | some o =>
    let items := db.orderItems.filter (fun item => item.orderId == oid)
    .ok ⟨o, items, some (getOrderTotal items)⟩

/-- The `DELETE /products/:id` handler: `prisma.product.delete` raises
`P2025` when no such product exists; otherwise the database enforces the
migration's `OrderItem_productId_fkey ... ON DELETE RESTRICT`: the delete
is rejected with a foreign-key violation while any `OrderItem` references
the product. -/
def deleteProduct (db : DB) (productId : Nat) : Except ApiError Unit × DB :=
  if db.products.any (fun p => p.id == productId) then
    if db.orderItems.any (fun item => item.productId == productId) then
      (.error .fkViolation, db)
    else (.ok (), { db with products := db.products.filter (fun p => ¬p.id = productId) })
  else (.error .recordNotFound, db)

/-- The summed quantity requested for one product across ALL line items of
a request (the aggregation §4.1 Step 3(iii) of the spec talks about). -/
def sumQtyFor (orderItems : List OrderItemReq) (productId : Nat) : Nat :=
  ((orderItems.filter (fun i => i.productId = productId)).map (fun i => i.quantity)).sum

/-- The (productId, decrement) pairs of the update statements `POST /orders`
builds: one per line-item occurrence, each with the first-match quantity. -/
def updPairs (orderItems : List OrderItemReq) : List (Nat × Nat) :=
  (orderItems.map (fun i => i.productId)).map
    (fun productId => (productId, getQuantity orderItems productId))

/-- Total decrement a list of update statements applies to one product. -/
def totalDecr (pairs : List (Nat × Nat)) (productId : Nat) : Nat :=
  ((pairs.filter (fun pr => pr.1 == productId)).map (fun pr => pr.2)).sum

/-- The state a fully successful placement leaves behind: the order row and
its items appended, and every product decremented by the total of the
update statements aimed at it. -/
def committedDB (db : DB) (userId : Nat) (orderItems : List OrderItemReq) (oid : Nat) : DB :=
  { db with
      orders := db.orders ++ [⟨oid, userId⟩],
      orderItems := db.orderItems ++ orderItems.map (toRow oid),
      products :=
        (db.products.map (fun p => { p with stock := p.stock - totalDecr (updPairs orderItems) p.id })) }

/-- The base64 alphabet used by `Buffer.toString("base64")`. -/
def base64Chars : List Char :=
  "ABCDEFGHIJKLMNOPQRSTUVWXYZabcdefghijklmnopqrstuvwxyz0123456789+/".toList

/-- The character encoding one 6-bit group. -/
def sextetChar (n : Nat) : Char := base64Chars.getD n 'A'

/-- The 6-bit group a base64 character stands for. -/
def charSextet (c : Char) : Nat := base64Chars.indexOf c

/-- `Buffer.from(s).toString("base64")` on a byte sequence: 3 bytes become
4 characters; a trailing group of 1 or 2 bytes is padded with `=`. -/
def b64EncodeBytes : List Nat → List Char
  | [] => []
  | [b1] => [sextetChar (b1 / 4), sextetChar (b1 % 4 * 16), '=', '=']
  | [b1, b2] =>
    [sextetChar (b1 / 4), sextetChar (b1 % 4 * 16 + b2 / 16), sextetChar (b2 % 16 * 4), '=']
  | b1 :: b2 :: b3 :: rest =>
    sextetChar (b1 / 4) :: sextetChar (b1 % 4 * 16 + b2 / 16) ::
      sextetChar (b2 % 16 * 4 + b3 / 64) :: sextetChar (b3 % 64) :: b64EncodeBytes rest

/-- `Buffer.from(token, "base64")`: 4 characters back to 3 bytes, with `=`
padding cutting the last group to 1 or 2 bytes. -/
def b64DecodeChars : List Char → List Nat
  | c1 :: c2 :: c3 :: c4 :: rest =>
    let s1 := charSextet c1
    let s2 := charSextet c2
    if c3 = '=' then [s1 * 4 + s2 / 16]
    else
      let s3 := charSextet c3
      if c4 = '=' then [s1 * 4 + s2 / 16, s2 % 16 * 16 + s3 / 4]
      else
        (s1 * 4 + s2 / 16) :: (s2 % 16 * 16 + s3 / 4) ::
          (s3 % 4 * 64 + charSextet c4) :: b64DecodeChars rest
  | _ => []

/-- The byte sequence of a string (`Buffer.from(s)`; on the ASCII strings
the claims quantify over, UTF-8 is the identity on char codes). -/
def strBytes (s : List Char) : List Nat := s.map (fun c => c.toNat)

/-- `buffer.toString("ascii")`: each byte keeps its low 7 bits. -/
def asciiChars (bs : List Nat) : List Char := bs.map (fun b => Char.ofNat (b % 128))

/-- The login token `POST /auth/login` issues:
`Buffer.from(userId + ":" + password).toString("base64")`. -/
def loginToken (userId password : List Char) : List Char :=
  b64EncodeBytes (strBytes (userId ++ ':' :: password))

/-- JavaScript `String.prototype.split(":")`. -/
def splitOnColon : List Char → List (List Char)
  | [] => [[]]
  | c :: rest =>
    let parts := splitOnColon rest
    if c = ':' then [] :: parts
    else
      match parts with
      | [] => [[c]]
      | h :: t => (c :: h) :: t

/-- The token handling of the `auth` middleware: base64-decode the cookie
token with the `ascii` encoding, split on `:`, destructure the FIRST two
parts as `[userId, password]`, and reject when either is missing or empty.
The recovered password is what the middleware then re-verifies against the
stored bcrypt hash. -/
def authRecover (token : List Char) : Option (List Char × List Char) :=
  match splitOnColon (asciiChars (b64DecodeChars token)) with
  | userId :: password :: _ =>
    if userId = [] ∨ password = [] then none else some (userId, password)
  | _ => none

lemma totalDecr_nil (productId : Nat) : totalDecr [] productId = 0 := rfl

lemma totalDecr_cons (pr : Nat × Nat) (rest : List (Nat × Nat)) (productId : Nat) :
    totalDecr (pr :: rest) productId =
      (if pr.1 = productId then pr.2 else 0) + totalDecr rest productId := by
  by_cases h : pr.1 = productId <;>
    simp [totalDecr, List.filter_cons, h]

lemma orderStmts_updates (userId oid : Nat) (orderItems : List OrderItemReq) :
    orderStmts userId oid orderItems =
      Stmt.createOrder userId oid orderItems ::
        (updPairs orderItems).map (fun pr => Stmt.updateStock pr.1 pr.2) := by
  simp [orderStmts, updPairs, List.map_map]

/-- Running a list of stock-update statements whose product ids all resolve
succeeds and decrements every product by the total of the decrements aimed
at its id. -/
lemma runTransaction_updates (pairs : List (Nat × Nat)) : ∀ (db : DB),
    (∀ pr ∈ pairs, db.products.any (fun p => p.id == pr.1) = true) →
    runTransaction db (pairs.map (fun pr => Stmt.updateStock pr.1 pr.2)) =
      .ok { db with products :=
              (db.products.map (fun p => { p with stock := p.stock - totalDecr pairs p.id })) } := by
  induction pairs with
  | nil =>
    intro db _
    simp [runTransaction, totalDecr]
  | cons pr rest ih =>
    intro db h
    have hhead := h pr (List.mem_cons_self pr rest)
    simp only [List.map_cons, runTransaction, runStmt, hhead, if_true]
    rw [ih]
    · congr 1
      simp only [List.map_map, DB.mk.injEq, true_and, and_true]
      apply List.map_congr_left
      intro p _
      by_cases hid : p.id = pr.1
      · simp [Function.comp, hid, totalDecr_cons]
        ring
      · simp [Function.comp, hid, totalDecr_cons, Ne.symm hid]
    · intro pr2 hpr2
      rw [List.any_map]
      have := h pr2 (List.mem_cons_of_mem pr hpr2)
      rw [List.any_eq_true] at this ⊢
      obtain ⟨p, hp, hpid⟩ := this
      refine ⟨p, hp, ?_⟩
      by_cases hid : p.id = pr.1 <;> simp_all [Function.comp]

lemma commitOrder_ok (db : DB) (userId oid : Nat) (orderItems : List OrderItemReq)
    (huser : userId ∈ db.users)
    (hfk : (orderItems.all (fun item => db.products.any (fun p => p.id == item.productId))) = true) :
    commitOrder db userId orderItems oid = .ok (committedDB db userId orderItems oid) := by
  rw [commitOrder, orderStmts_updates]
  simp only [runTransaction, runStmt, if_pos huser, hfk, if_true]
  rw [runTransaction_updates]
  · rfl
  · intro pr hpr
    simp only [updPairs, List.map_map, List.mem_map] at hpr
    obtain ⟨item, hitem, rfl⟩ := hpr
    simp only [List.all_eq_true] at hfk
    exact hfk item hitem

/-- Every run of the `POST /orders` handler either fails leaving the state
exactly as it was, or succeeds with the order row, all its item rows, and
all stock decrements applied together. -/
lemma placeOrder_cases (db : DB) (userId : Nat) (orderItems : List OrderItemReq) (oid : Nat) :
    (∃ e, placeOrder db userId orderItems oid = (.error e, db)) ∨
    placeOrder db userId orderItems oid =
      (.ok ⟨⟨oid, userId⟩, orderItems.map (toRow oid), none⟩,
       committedDB db userId orderItems oid) := by
  by_cases hcheck : checkStock db orderItems
  · by_cases huser : userId ∈ db.users
    · by_cases hfk : (orderItems.all (fun item => db.products.any (fun p => p.id == item.productId))) = true
      · right
        rw [placeOrder, if_pos hcheck, commitOrder_ok db userId oid orderItems huser hfk]
      · left
        refine ⟨.fkViolation, ?_⟩
        have hc : commitOrder db userId orderItems oid = .error .fkViolation := by
          rw [commitOrder, orderStmts_updates]
          simp [runTransaction, runStmt, huser, hfk]
        rw [placeOrder, if_pos hcheck, hc]
    · left
      refine ⟨.fkViolation, ?_⟩
      have hc : commitOrder db userId orderItems oid = .error .fkViolation := by
        rw [commitOrder, orderStmts_updates]
        simp [runTransaction, runStmt, huser]
      rw [placeOrder, if_pos hcheck, hc]
  · left
    refine ⟨.insufficientStock, ?_⟩
    rw [placeOrder, if_neg hcheck]

/-- When no productId occurs in two line items, `find(...)` (first match)
agrees with the line item itself: the first-match quantity IS the item's
quantity. -/
lemma getQuantity_eq_of_nodup :
    ∀ (orderItems : List OrderItemReq),
      (orderItems.map (fun i => i.productId)).Nodup →
      ∀ item ∈ orderItems, getQuantity orderItems item.productId = item.quantity := by
  intro orderItems
  induction orderItems with
  | nil => intro _ item h; cases h
  | cons head rest ih =>
    intro hnodup item hmem
    rcases List.mem_cons.mp hmem with rfl | htail
    · simp [getQuantity, List.find?]
    · have hne : head.productId ≠ item.productId := by
        intro heq
        have : item.productId ∈ rest.map (fun i => i.productId) :=
          List.mem_map.mpr ⟨item, htail, rfl⟩
        rw [List.map_cons, List.nodup_cons] at hnodup
        exact hnodup.1 (heq ▸ this)
      have : (head.productId == item.productId) = false := by
        simp [hne]
      simp only [getQuantity, List.find?, this]
      have hrest : (rest.map (fun i => i.productId)).Nodup := by
        rw [List.map_cons, List.nodup_cons] at hnodup
        exact hnodup.2
      exact ih hrest item htail

lemma totalDecr_map_pairs :
    ∀ (orderItems : List OrderItemReq) (productId : Nat),
      totalDecr (orderItems.map (fun i => (i.productId, i.quantity))) productId =
        sumQtyFor orderItems productId := by
  intro orderItems
  induction orderItems with
  | nil => intro productId; rfl
  | cons head rest ih =>
    intro productId
    rw [List.map_cons, totalDecr_cons, ih productId]
    by_cases h : head.productId = productId <;>
      simp [sumQtyFor, List.filter_cons, h]

/-- With no duplicated productId, the per-occurrence first-match decrements
coincide with the summed per-product decrement. -/
lemma totalDecr_updPairs (orderItems : List OrderItemReq)
    (hnodup : (orderItems.map (fun i => i.productId)).Nodup) (productId : Nat) :
    totalDecr (updPairs orderItems) productId = sumQtyFor orderItems productId := by
  have h1 : updPairs orderItems = orderItems.map (fun i => (i.productId, i.quantity)) := by
    rw [updPairs, List.map_map]
    apply List.map_congr_left
    intro item hitem
    simp only [Function.comp]
    rw [getQuantity_eq_of_nodup orderItems hnodup item hitem]
  rw [h1, totalDecr_map_pairs]

/-- With no duplicated productId, a request in which every line item's
quantity is within its (existing) product's stock passes the handler's
stock check. -/
lemma checkStock_of_valid (db : DB) (orderItems : List OrderItemReq)
    (hnodup : (orderItems.map (fun i => i.productId)).Nodup)
    (hstock : ∀ item ∈ orderItems, ∀ p ∈ db.products,
      p.id = item.productId → (item.quantity : Int) ≤ p.stock) :
    checkStock db orderItems = true := by
  rw [checkStock, isSufficientStock, List.all_eq_true]
  intro p hp
  rw [loadProducts, List.mem_filter] at hp
  obtain ⟨hpdb, hpin⟩ := hp
  rw [List.contains_eq_any_beq, List.any_eq_true] at hpin
  obtain ⟨pid, hpidmem, hpid⟩ := hpin
  rw [List.mem_map] at hpidmem
  obtain ⟨item, hitem, rfl⟩ := hpidmem
  have heq : p.id = item.productId := by
    have := beq_iff_eq.mp hpid
    omega
  rw [decide_eq_true_eq, heq, getQuantity_eq_of_nodup orderItems hnodup item hitem]
  exact hstock item hitem p hpdb heq

/-- With no duplicated productId, a line item over an existing product's
stock makes the handler's stock check fail. -/
lemma checkStock_of_over (db : DB) (orderItems : List OrderItemReq)
    (hnodup : (orderItems.map (fun i => i.productId)).Nodup)
    (hover : ∃ item ∈ orderItems, ∃ p ∈ db.products,
      p.id = item.productId ∧ p.stock < (item.quantity : Int)) :
    checkStock db orderItems = false := by
  obtain ⟨item, hitem, p, hpdb, hpid, hlt⟩ := hover
  rw [checkStock, isSufficientStock]
  by_contra hall
  rw [Bool.not_eq_false, List.all_eq_true] at hall
  have hpin : p ∈ loadProducts db orderItems := by
    rw [loadProducts, List.mem_filter]
    refine ⟨hpdb, ?_⟩
    rw [List.contains_eq_any_beq, List.any_eq_true]
    exact ⟨item.productId, List.mem_map.mpr ⟨item, hitem, rfl⟩, by simp [hpid]⟩
  have := hall p hpin
  rw [decide_eq_true_eq, hpid, getQuantity_eq_of_nodup orderItems hnodup item hitem] at this
  omega

/-- The `total += unitPrice * quantity` loop computes the sum over the
order's items of `unitPrice * quantity`. -/
lemma getOrderTotal_eq_sum (items : List OrderItemRow) :
    getOrderTotal items = (items.map (fun i => i.unitPrice * (i.quantity : ℚ))).sum := by
  have haux : ∀ (l : List OrderItemRow) (acc : ℚ),
      l.foldl (fun total i => total + i.unitPrice * (i.quantity : ℚ)) acc =
        acc + (l.map (fun i => i.unitPrice * (i.quantity : ℚ))).sum := by
    intro l
    induction l with
    | nil => intro acc; simp
    | cons head rest ih =>
      intro acc
      rw [List.foldl_cons, ih, List.map_cons, List.sum_cons]
      ring
  rw [getOrderTotal, haux, zero_add]

lemma find?_append_right {α : Type} (l1 l2 : List α) (p : α → Bool)
    (h : ∀ a ∈ l1, p a = false) :
    (l1 ++ l2).find? p = l2.find? p := by
  induction l1 with
  | nil => rfl
  | cons head rest ih =>
    rw [List.cons_append, List.find?]
    rw [h head (List.mem_cons_self head rest)]
    exact ih (fun a ha => h a (List.mem_cons_of_mem head ha))

/-- Reading the placed order back with `GET /orders/:id` finds exactly its
own item rows and attaches the computed total, provided the generated order
id is fresh. -/
lemma getOrder_committed (db : DB) (userId : Nat) (orderItems : List OrderItemReq) (oid : Nat)
    (hfresh : ∀ o ∈ db.orders, o.id ≠ oid)
    (hfreshItems : ∀ item ∈ db.orderItems, item.orderId ≠ oid) :
    getOrder (committedDB db userId orderItems oid) oid =
      .ok ⟨⟨oid, userId⟩, orderItems.map (toRow oid),
           some (getOrderTotal (orderItems.map (toRow oid)))⟩ := by
  rw [getOrder]
  have hfind : (committedDB db userId orderItems oid).orders.find? (fun o => o.id == oid) =
      some ⟨oid, userId⟩ := by
    show (db.orders ++ [OrderRow.mk oid userId]).find? (fun o => o.id == oid) =
      some (OrderRow.mk oid userId)
    rw [find?_append_right]
    · simp [List.find?]
    · intro o ho
      simp [hfresh o ho]
  rw [hfind]
  have hfilter : (committedDB db userId orderItems oid).orderItems.filter
      (fun item => item.orderId == oid) = orderItems.map (toRow oid) := by
    show (db.orderItems ++ orderItems.map (toRow oid)).filter (fun item => item.orderId == oid) =
      orderItems.map (toRow oid)
    rw [List.filter_append]
    have h1 : db.orderItems.filter (fun item => item.orderId == oid) = [] := by
      rw [List.filter_eq_nil_iff]
      intro item hitem
      simp [hfreshItems item hitem]
    have h2 : (orderItems.map (toRow oid)).filter (fun item => item.orderId == oid) =
        orderItems.map (toRow oid) := by
      rw [List.filter_eq_self]
      intro row hrow
      rw [List.mem_map] at hrow
      obtain ⟨item, _, rfl⟩ := hrow
      simp [toRow]
    rw [h1, h2, List.nil_append]
  rw [hfilter]

lemma charSextet_sextetChar (n : Nat) (h : n < 64) : charSextet (sextetChar n) = n := by
  have haux : ∀ i : Fin 64, charSextet (sextetChar i.val) = i.val := by decide
  exact haux ⟨n, h⟩

lemma sextetChar_ne_eq (n : Nat) (h : n < 64) : sextetChar n ≠ '=' := by
  have haux : ∀ i : Fin 64, sextetChar i.val ≠ '=' := by decide
  exact haux ⟨n, h⟩

/-- Base64 decoding inverts base64 encoding on byte sequences. -/
lemma b64_roundtrip : ∀ (bs : List Nat), (∀ b ∈ bs, b < 256) →
    b64DecodeChars (b64EncodeBytes bs) = bs
  | [] => fun _ => rfl
  | [b1] => fun h => by
    have hb1 : b1 < 256 := h b1 (by simp)
    simp only [b64EncodeBytes, b64DecodeChars]
    rw [if_pos trivial]
    rw [charSextet_sextetChar _ (by omega), charSextet_sextetChar _ (by omega)]
    simp only [List.cons.injEq, and_true]
    omega
  | [b1, b2] => fun h => by
    have hb1 : b1 < 256 := h b1 (by simp)
    have hb2 : b2 < 256 := h b2 (by simp)
    simp only [b64EncodeBytes, b64DecodeChars]
    rw [if_neg (sextetChar_ne_eq _ (by omega)), if_pos trivial]
    rw [charSextet_sextetChar _ (by omega), charSextet_sextetChar _ (by omega),
        charSextet_sextetChar _ (by omega)]
    simp only [List.cons.injEq, and_true]
    refine ⟨by omega, by omega⟩
  | b1 :: b2 :: b3 :: rest => fun h => by
    have hb1 : b1 < 256 := h b1 (by simp)
    have hb2 : b2 < 256 := h b2 (by simp)
    have hb3 : b3 < 256 := h b3 (by simp)
    simp only [b64EncodeBytes, b64DecodeChars]
    rw [if_neg (sextetChar_ne_eq _ (by omega)), if_neg (sextetChar_ne_eq _ (by omega))]
    rw [charSextet_sextetChar _ (by omega), charSextet_sextetChar _ (by omega),
        charSextet_sextetChar _ (by omega), charSextet_sextetChar _ (by omega)]
    rw [b64_roundtrip rest (fun b hb => h b (by simp [hb]))]
    simp only [List.cons.injEq, and_true]
    refine ⟨by omega, by omega, by omega⟩

/-- The `ascii` decoding recovers a string whose characters are 7-bit. -/
lemma asciiChars_strBytes (s : List Char) (h : ∀ c ∈ s, c.toNat < 128) :
    asciiChars (strBytes s) = s := by
  rw [asciiChars, strBytes, List.map_map]
  induction s with
  | nil => rfl
  | cons c rest ih =>
    rw [List.map_cons]
    have hc : c.toNat % 128 = c.toNat := Nat.mod_eq_of_lt (h c (by simp))
    simp only [Function.comp, hc, Char.ofNat_toNat]
    rw [ih (fun a ha => h a (by simp [ha]))]

lemma splitOnColon_no_colon : ∀ (s : List Char), ':' ∉ s → splitOnColon s = [s] := by
  intro s
  induction s with
  | nil => intro _; rfl
  | cons c rest ih =>
    intro h
    have hc : ¬c = ':' := by
      intro hcc; exact h (hcc ▸ List.mem_cons_self c rest)
    have hrest : ':' ∉ rest := fun hr => h (List.mem_cons_of_mem c hr)
    rw [splitOnColon]
    simp only [ih hrest, if_neg hc]

lemma splitOnColon_append (s rest : List Char) (h : ':' ∉ s) :
    splitOnColon (s ++ ':' :: rest) = s :: splitOnColon rest := by
  induction s with
  | nil =>
    rw [List.nil_append, splitOnColon]
    simp
  | cons c s1 ih =>
    have hc : ¬c = ':' := by
      intro hcc; exact h (hcc ▸ List.mem_cons_self c s1)
    have hs1 : ':' ∉ s1 := fun hr => h (List.mem_cons_of_mem c hr)
    rw [List.cons_append, splitOnColon]
    simp only [ih hs1, if_neg hc]

/-- C1: the spec requires the stock check and decrement to aggregate the
summed quantity when one productId appears in several line items; the code
does not. With two line items for product 1 (quantities 2 and 3) and stock
4, the request is ACCEPTED (the check compares the first-match quantity 2)
and each of the two update statements decrements by 2, leaving stock 0
while 5 units were sold; with stock 5 the request succeeds but leaves
stock 1, not the 0 the spec's aggregation example demands. -/
theorem duplicate_productId_not_aggregated :
    placeOrder ⟨[1], [⟨1, 4, 5⟩], [], []⟩ 1 [⟨1, 2, 5⟩, ⟨1, 3, 5⟩] 1 =
      (.ok ⟨⟨1, 1⟩, [⟨1, 1, 2, 5⟩, ⟨1, 1, 3, 5⟩], none⟩,
       ⟨[1], [⟨1, 0, 5⟩], [⟨1, 1⟩], [⟨1, 1, 2, 5⟩, ⟨1, 1, 3, 5⟩]⟩) ∧
    (placeOrder ⟨[1], [⟨1, 5, 5⟩], [], []⟩ 1 [⟨1, 2, 5⟩, ⟨1, 3, 5⟩] 1).2.products =
      [⟨1, 1, 5⟩] ∧
    (1 : Int) ≠ 0 := by
  refine ⟨by decide, by decide, by decide⟩

/-- C2 counterexample: a request with line items (quantity 1, then
quantity 100) for the same product with stock 10 contains a line item
whose quantity exceeds stock, yet the placement SUCCEEDS (the check only
sees the first-match quantity 1), stock changes to 8 and an order with an
item of quantity 100 is created. -/
theorem insufficient_item_accepted_cex :
    placeOrder ⟨[1], [⟨1, 10, 5⟩], [], []⟩ 1 [⟨1, 1, 5⟩, ⟨1, 100, 5⟩] 1 =
      (.ok ⟨⟨1, 1⟩, [⟨1, 1, 1, 5⟩, ⟨1, 1, 100, 5⟩], none⟩,
       ⟨[1], [⟨1, 8, 5⟩], [⟨1, 1⟩], [⟨1, 1, 1, 5⟩, ⟨1, 1, 100, 5⟩]⟩) ∧
    (100 : Int) > 10 := by
  refine ⟨by decide, by decide⟩

/-- C2 (amended: restricted to requests in which no productId appears in
more than one line item): a line item whose quantity exceeds the stock of
its (existing) product makes `POST /orders` fail with the insufficient
stock error, and the state is returned exactly as it was — no stock
change, no order, no order items. -/
theorem placeOrder_insufficient_rejects (db : DB) (userId : Nat)
    (orderItems : List OrderItemReq) (oid : Nat)
    (hnodup : (orderItems.map (fun i => i.productId)).Nodup)
    (hover : ∃ item ∈ orderItems, ∃ p ∈ db.products,
      p.id = item.productId ∧ p.stock < (item.quantity : Int)) :
    placeOrder db userId orderItems oid = (.error .insufficientStock, db) := by
  have hc := checkStock_of_over db orderItems hnodup hover
  rw [placeOrder, if_neg (by simp [hc])]

/-- C2 witness: concrete instance of `placeOrder_insufficient_rejects`. -/
theorem placeOrder_insufficient_rejects_witness :
    (([⟨1, 5, 5⟩] : List OrderItemReq).map (fun i => i.productId)).Nodup ∧
    (∃ item ∈ ([⟨1, 5, 5⟩] : List OrderItemReq), ∃ p ∈ [(⟨1, 4, 5⟩ : Product)],
      p.id = item.productId ∧ p.stock < (item.quantity : Int)) ∧
    placeOrder ⟨[1], [⟨1, 4, 5⟩], [], []⟩ 1 [⟨1, 5, 5⟩] 7 =
      (.error .insufficientStock, ⟨[1], [⟨1, 4, 5⟩], [], []⟩) :=
  ⟨by decide, by decide,
   placeOrder_insufficient_rejects ⟨[1], [⟨1, 4, 5⟩], [], []⟩ 1 [⟨1, 5, 5⟩] 7
     (by decide) (by decide)⟩

/-- C4: the invariant "stock ≥ 0 outside a transaction" is violated by the
code even under sequential execution: with stock 4 and two line items of
quantity 3 for the same product, the check passes (first-match quantity
3 ≤ 4) and the two decrements leave a committed stock of −2. -/
theorem stock_goes_negative :
    placeOrder ⟨[1], [⟨1, 4, 1⟩], [], []⟩ 1 [⟨1, 3, 1⟩, ⟨1, 3, 1⟩] 1 =
      (.ok ⟨⟨1, 1⟩, [⟨1, 1, 3, 1⟩, ⟨1, 1, 3, 1⟩], none⟩,
       ⟨[1], [⟨1, -2, 1⟩], [⟨1, 1⟩], [⟨1, 1, 3, 1⟩, ⟨1, 1, 3, 1⟩]⟩) ∧
    (-2 : Int) < 0 := by
  refine ⟨by decide, by decide⟩

/-- C8: the check-then-act interleaving of two placements, each of
quantity 6 against stock 10: both requests pass the stock check against
the same initial state, then both transactions commit; BOTH succeed and
the final stock is −2, not the "exactly one succeeds, final stock 4,
never negative" the claim states. -/
theorem concurrent_placements_oversell :
    checkStock ⟨[1, 2], [⟨1, 10, 5⟩], [], []⟩ [⟨1, 6, 5⟩] = true ∧
    commitOrder ⟨[1, 2], [⟨1, 10, 5⟩], [], []⟩ 1 [⟨1, 6, 5⟩] 1 =
      .ok ⟨[1, 2], [⟨1, 4, 5⟩], [⟨1, 1⟩], [⟨1, 1, 6, 5⟩]⟩ ∧
    commitOrder ⟨[1, 2], [⟨1, 4, 5⟩], [⟨1, 1⟩], [⟨1, 1, 6, 5⟩]⟩ 2 [⟨1, 6, 5⟩] 2 =
      .ok ⟨[1, 2], [⟨1, -2, 5⟩], [⟨1, 1⟩, ⟨2, 2⟩], [⟨1, 1, 6, 5⟩, ⟨2, 1, 6, 5⟩]⟩ ∧
    (-2 : Int) < 0 := by
  refine ⟨by decide, by decide, by decide, by decide⟩

/-- C9: a product referenced by at least one `OrderItem` row cannot be
deleted: `DELETE /products/:id` fails (the `ON DELETE RESTRICT` foreign
key, or `P2025` should the product row itself be absent) and the state —
the product and the referencing order items — is returned unchanged. -/
theorem deleteProduct_restricted (db : DB) (productId : Nat)
    (h : ∃ item ∈ db.orderItems, item.productId = productId) :
    ∃ e, deleteProduct db productId = (.error e, db) := by
  by_cases hex : (db.products.any (fun p => p.id == productId)) = true
  · refine ⟨.fkViolation, ?_⟩
    have href : (db.orderItems.any (fun item => item.productId == productId)) = true := by
      rw [List.any_eq_true]
      obtain ⟨item, hitem, hpid⟩ := h
      exact ⟨item, hitem, by simp [hpid]⟩
    rw [deleteProduct, if_pos hex, if_pos href]
  · refine ⟨.recordNotFound, ?_⟩
    rw [deleteProduct, if_neg hex]

/-- C9 witness: concrete instance of `deleteProduct_restricted`. -/
theorem deleteProduct_restricted_witness :
    (∃ item ∈ ([⟨1, 1, 6, 5⟩] : List OrderItemRow), item.productId = 1) ∧
    ∃ e, deleteProduct ⟨[1], [⟨1, 10, 5⟩], [⟨1, 1⟩], [⟨1, 1, 6, 5⟩]⟩ 1 =
      (.error e, ⟨[1], [⟨1, 10, 5⟩], [⟨1, 1⟩], [⟨1, 1, 6, 5⟩]⟩) :=
  ⟨by decide,
   deleteProduct_restricted ⟨[1], [⟨1, 10, 5⟩], [⟨1, 1⟩], [⟨1, 1, 6, 5⟩]⟩ 1 (by decide)⟩

/-- C3 counterexample: the request [(product 1, qty 2), (product 1, qty 3)]
against stock 10 is valid in the claim's sense (non-empty, product exists,
each quantity ≤ 10), but the product's stock decreases by 4 — the
first-match quantity 2 applied once per line item — not by the summed
requested quantity 5. -/
theorem placeOrder_summed_decrement_cex :
    (placeOrder ⟨[1], [⟨1, 10, 5⟩], [], []⟩ 1 [⟨1, 2, 5⟩, ⟨1, 3, 5⟩] 1).2.products =
      [⟨1, 6, 5⟩] ∧
    sumQtyFor [⟨1, 2, 5⟩, ⟨1, 3, 5⟩] 1 = 5 ∧
    (10 - 5 : Int) ≠ 6 := by
  refine ⟨by decide, by decide, by decide⟩

/-- C3 (amended: restricted to requests in which no productId appears in
more than one line item): a valid request — existing user and products,
every quantity within stock — succeeds; the created order carries one
`OrderItem` row per line item, each referenced product's stock decreases
by exactly the summed requested quantity for it, and the computed total of
the created items equals Σ (unitPrice × quantity). In the claim's concrete
case (stock 10, one line item, quantity 3, unit price 5) this gives one
item row, total 15, and stock 7. -/
theorem placeOrder_valid_succeeds (db : DB) (userId : Nat)
    (orderItems : List OrderItemReq) (oid : Nat)
    (_hne : orderItems ≠ [])
    (hnodup : (orderItems.map (fun i => i.productId)).Nodup)
    (huser : userId ∈ db.users)
    (hfk : ∀ item ∈ orderItems, ∃ p ∈ db.products, p.id = item.productId)
    (hstock : ∀ item ∈ orderItems, ∀ p ∈ db.products,
      p.id = item.productId → (item.quantity : Int) ≤ p.stock) :
    placeOrder db userId orderItems oid =
      (.ok ⟨⟨oid, userId⟩, orderItems.map (toRow oid), none⟩,
       { db with
           orders := db.orders ++ [⟨oid, userId⟩],
           orderItems := db.orderItems ++ orderItems.map (toRow oid),
           products :=
             (db.products.map (fun p => { p with stock := p.stock - sumQtyFor orderItems p.id })) }) ∧
    getOrderTotal (orderItems.map (toRow oid)) =
      (orderItems.map (fun i => i.unitPrice * (i.quantity : ℚ))).sum := by
  constructor
  · have hcheck := checkStock_of_valid db orderItems hnodup hstock
    have hfkb : (orderItems.all
        (fun item => db.products.any (fun p => p.id == item.productId))) = true := by
      rw [List.all_eq_true]
      intro item hitem
      obtain ⟨p, hp, hpid⟩ := hfk item hitem
      rw [List.any_eq_true]
      exact ⟨p, hp, by simp [hpid]⟩
    rw [placeOrder, if_pos hcheck, commitOrder_ok db userId oid orderItems huser hfkb]
    simp only [committedDB, Prod.mk.injEq, DB.mk.injEq, true_and, and_true]
    apply List.map_congr_left
    intro p _
    rw [totalDecr_updPairs orderItems hnodup p.id]
  · rw [getOrderTotal_eq_sum, List.map_map]
    rfl

/-- C3 witness: the claim's end-to-end example — stock 10, price 5.00, one
line item of quantity 3 at unit price 5.00 — through
`placeOrder_valid_succeeds`, plus the evaluated total 15 and stock 7. -/
theorem placeOrder_valid_succeeds_witness :
    (([⟨1, 3, 5⟩] : List OrderItemReq) ≠ []) ∧
    ((([⟨1, 3, 5⟩] : List OrderItemReq).map (fun i => i.productId)).Nodup) ∧
    (1 ∈ [1]) ∧
    (∀ item ∈ ([⟨1, 3, 5⟩] : List OrderItemReq),
      ∃ p ∈ [(⟨1, 10, 5⟩ : Product)], p.id = item.productId) ∧
    (∀ item ∈ ([⟨1, 3, 5⟩] : List OrderItemReq), ∀ p ∈ [(⟨1, 10, 5⟩ : Product)],
      p.id = item.productId → (item.quantity : Int) ≤ p.stock) ∧
    (placeOrder ⟨[1], [⟨1, 10, 5⟩], [], []⟩ 1 [⟨1, 3, 5⟩] 1 =
      (.ok ⟨⟨1, 1⟩, [⟨1, 3, 5⟩].map (toRow 1), none⟩,
       { users := [1],
         products := [(⟨1, 10, 5⟩ : Product)].map
           (fun p => { p with stock := p.stock - sumQtyFor [⟨1, 3, 5⟩] p.id }),
         orders := [⟨1, 1⟩],
         orderItems := [⟨1, 3, 5⟩].map (toRow 1) }) ∧
     getOrderTotal ([⟨1, 3, 5⟩].map (toRow 1)) =
       (([⟨1, 3, 5⟩] : List OrderItemReq).map (fun i => i.unitPrice * (i.quantity : ℚ))).sum) ∧
    getOrderTotal ([⟨1, 3, 5⟩].map (toRow 1)) = 15 ∧
    ([(⟨1, 10, 5⟩ : Product)].map
      (fun p => { p with stock := p.stock - sumQtyFor [⟨1, 3, 5⟩] p.id })) = [⟨1, 7, 5⟩] :=
  ⟨by decide, by decide, by decide, by decide, by decide,
   placeOrder_valid_succeeds ⟨[1], [⟨1, 10, 5⟩], [], []⟩ 1 [⟨1, 3, 5⟩] 1
     (by decide) (by decide) (by decide) (by decide) (by decide),
   by norm_num [getOrderTotal, toRow], by decide⟩

/-- C5: the commit step of `POST /orders` is all-or-nothing: every run
either returns an error with the state exactly as it was (no order row, no
item rows, no stock change), or succeeds with the order row, every item
row and every stock decrement visible together (`committedDB`). -/
theorem placeOrder_commit_atomic (db : DB) (userId : Nat)
    (orderItems : List OrderItemReq) (oid : Nat) :
    (∃ e, placeOrder db userId orderItems oid = (.error e, db)) ∨
    placeOrder db userId orderItems oid =
      (.ok ⟨⟨oid, userId⟩, orderItems.map (toRow oid), none⟩,
       committedDB db userId orderItems oid) :=
  placeOrder_cases db userId orderItems oid

/-- C6 counterexample: in the claim's own concrete case (stock 10, one
line item of quantity 3 at unit price 5) the body `POST /orders` responds
with has NO `total` field (the route sends the `order.create` result
directly), although the read-time total of its items is 15: the claim's
"result ... together with a computed total field" is false of the
placement response. -/
theorem placeOrder_response_total_cex :
    (placeOrder ⟨[1], [⟨1, 10, 5⟩], [], []⟩ 1 [⟨1, 3, 5⟩] 1).1 =
      .ok ⟨⟨1, 1⟩, [⟨1, 1, 3, 5⟩], none⟩ ∧
    getOrderTotal [⟨1, 1, 3, 5⟩] = 15 ∧
    (none : Option ℚ) ≠ some 15 := by
  refine ⟨by decide, by norm_num [getOrderTotal], by decide⟩

/-- C6 (amended): the placement response itself carries NO `total` field;
the computed total — Σ over the order's items of unitPrice × quantity,
never stored — is attached only when the created order is read back
through `GET /orders/:id`. -/
theorem placeOrder_total_computed_at_read (db : DB) (userId : Nat)
    (orderItems : List OrderItemReq) (oid : Nat) (r : OrderResponse) (db1 : DB)
    (h : placeOrder db userId orderItems oid = (.ok r, db1))
    (hfresh : ∀ o ∈ db.orders, o.id ≠ oid)
    (hfreshItems : ∀ item ∈ db.orderItems, item.orderId ≠ oid) :
    r.total = none ∧
    getOrder db1 oid = .ok ⟨⟨oid, userId⟩, r.orderItems, some (getOrderTotal r.orderItems)⟩ ∧
    getOrderTotal r.orderItems =
      (r.orderItems.map (fun i => i.unitPrice * (i.quantity : ℚ))).sum := by
  rcases placeOrder_cases db userId orderItems oid with ⟨e, he⟩ | hok
  · rw [he, Prod.mk.injEq] at h
    exact absurd h.1 (by simp)
  · rw [hok, Prod.mk.injEq] at h
    obtain ⟨hfst, hsnd⟩ := h
    injection hfst with hr
    subst hr
    subst hsnd
    exact ⟨rfl, getOrder_committed db userId orderItems oid hfresh hfreshItems,
           getOrderTotal_eq_sum _⟩

/-- C6 witness: concrete instance of `placeOrder_total_computed_at_read` —
the placement response has no `total`; reading the order back computes 15. -/
theorem placeOrder_total_computed_at_read_witness :
    (placeOrder ⟨[1], [⟨1, 10, 5⟩], [], []⟩ 1 [⟨1, 3, 5⟩] 1 =
      (.ok ⟨⟨1, 1⟩, [⟨1, 1, 3, 5⟩], none⟩, ⟨[1], [⟨1, 7, 5⟩], [⟨1, 1⟩], [⟨1, 1, 3, 5⟩]⟩)) ∧
    (∀ o ∈ ([] : List OrderRow), o.id ≠ 1) ∧
    (∀ item ∈ ([] : List OrderItemRow), item.orderId ≠ 1) ∧
    ((⟨⟨1, 1⟩, [⟨1, 1, 3, 5⟩], none⟩ : OrderResponse).total = none ∧
     getOrder ⟨[1], [⟨1, 7, 5⟩], [⟨1, 1⟩], [⟨1, 1, 3, 5⟩]⟩ 1 =
       .ok ⟨⟨1, 1⟩, (⟨⟨1, 1⟩, [⟨1, 1, 3, 5⟩], none⟩ : OrderResponse).orderItems,
            some (getOrderTotal (⟨⟨1, 1⟩, [⟨1, 1, 3, 5⟩], none⟩ : OrderResponse).orderItems)⟩ ∧
     getOrderTotal (⟨⟨1, 1⟩, [⟨1, 1, 3, 5⟩], none⟩ : OrderResponse).orderItems =
       ((⟨⟨1, 1⟩, [⟨1, 1, 3, 5⟩], none⟩ : OrderResponse).orderItems.map
         (fun i => i.unitPrice * (i.quantity : ℚ))).sum) :=
  ⟨by decide, by decide, by decide,
   placeOrder_total_computed_at_read ⟨[1], [⟨1, 10, 5⟩], [], []⟩ 1 [⟨1, 3, 5⟩] 1
     ⟨⟨1, 1⟩, [⟨1, 1, 3, 5⟩], none⟩ ⟨[1], [⟨1, 7, 5⟩], [⟨1, 1⟩], [⟨1, 1, 3, 5⟩]⟩
     (by decide) (by decide) (by decide)⟩

/-- C7 counterexample: an order referencing a productId with no product row
passes the validate step untouched (the check iterates only over FOUND
products) and fails inside the commit with a foreign-key violation mapped
to HTTP 500 — not with the ValidationError/NotFoundError (400/404) the
claim states for the validate step. -/
theorem missing_product_error_cex :
    placeOrder ⟨[1], [], [], []⟩ 1 [⟨1, 1, 5⟩] 1 =
      (.error .fkViolation, ⟨[1], [], [], []⟩) ∧
    checkStock ⟨[1], [], [], []⟩ [⟨1, 1, 5⟩] = true ∧
    httpStatus .fkViolation = 500 ∧
    httpStatus .fkViolation ≠ 404 ∧ httpStatus .fkViolation ≠ 400 := by
  refine ⟨by decide, by decide, by decide, by decide, by decide⟩

/-- C7 (amended): a request referencing a nonexistent productId is NOT
rejected by the validate step (which checks only the loaded products); the
operation fails nonetheless — either the insufficient-stock throw on
another product, or the database foreign-key violation inside the commit —
with the state returned unchanged, and either error is surfaced as
HTTP 500, not as a 404/400 validation failure. -/
theorem placeOrder_missing_product (db : DB) (userId : Nat)
    (orderItems : List OrderItemReq) (oid : Nat)
    (hmiss : ∃ item ∈ orderItems, ∀ p ∈ db.products, p.id ≠ item.productId) :
    ∃ e, placeOrder db userId orderItems oid = (.error e, db) ∧
      (e = .insufficientStock ∨ e = .fkViolation) ∧ httpStatus e = 500 := by
  by_cases hcheck : checkStock db orderItems
  · refine ⟨.fkViolation, ?_, Or.inr rfl, rfl⟩
    have hfk : ¬(orderItems.all
        (fun item => db.products.any (fun p => p.id == item.productId))) = true := by
      intro hall
      rw [List.all_eq_true] at hall
      obtain ⟨item, hitem, hnone⟩ := hmiss
      have := hall item hitem
      rw [List.any_eq_true] at this
      obtain ⟨p, hp, hpeq⟩ := this
      exact hnone p hp (by simpa using hpeq)
    by_cases huser : userId ∈ db.users
    · have hc : commitOrder db userId orderItems oid = .error .fkViolation := by
        rw [commitOrder, orderStmts_updates]
        simp [runTransaction, runStmt, huser, hfk]
      rw [placeOrder, if_pos hcheck, hc]
    · have hc : commitOrder db userId orderItems oid = .error .fkViolation := by
        rw [commitOrder, orderStmts_updates]
        simp [runTransaction, runStmt, huser]
      rw [placeOrder, if_pos hcheck, hc]
  · refine ⟨.insufficientStock, ?_, Or.inl rfl, rfl⟩
    rw [placeOrder, if_neg hcheck]

/-- C7 witness: concrete instance of `placeOrder_missing_product`. -/
theorem placeOrder_missing_product_witness :
    (∃ item ∈ ([⟨2, 1, 5⟩] : List OrderItemReq),
      ∀ p ∈ [(⟨1, 10, 5⟩ : Product)], p.id ≠ item.productId) ∧
    ∃ e, placeOrder ⟨[1], [⟨1, 10, 5⟩], [], []⟩ 1 [⟨2, 1, 5⟩] 3 =
        (.error e, ⟨[1], [⟨1, 10, 5⟩], [], []⟩) ∧
      (e = .insufficientStock ∨ e = .fkViolation) ∧ httpStatus e = 500 :=
  ⟨by decide,
   placeOrder_missing_product ⟨[1], [⟨1, 10, 5⟩], [], []⟩ 1 [⟨2, 1, 5⟩] 3 (by decide)⟩

/-- C10 counterexample: for the password `a:b` (a perfectly loggable-in
credential), the token is the base64 of `u1:a:b`, and the middleware's
destructured split recovers the password `a`, not `a:b`: the claimed
round-trip "decoding the token recovers the user's plaintext password"
fails, and so would the re-verification against the stored hash. -/
theorem loginToken_colon_cex :
    authRecover (loginToken ['u', '1'] ['a', ':', 'b']) = some (['u', '1'], ['a']) ∧
    (['a'] : List Char) ≠ ['a', ':', 'b'] := by
  refine ⟨by decide, by decide⟩

/-- C10 (amended): the login token is exactly the base64 encoding of
`userId:password`, and the auth middleware's decode-then-split recovers
the original userId and plaintext password — PROVIDED the password (and
userId) contain no `:` and are 7-bit ASCII; the middleware keeps only the
first two `:`-separated segments, so a password containing `:` is
truncated at its first colon and the recovered password is wrong. -/
theorem loginToken_roundtrip (userId password : List Char)
    (hu : userId ≠ []) (hp : password ≠ [])
    (hcu : ':' ∉ userId) (hcp : ':' ∉ password)
    (hau : ∀ c ∈ userId, c.toNat < 128) (hap : ∀ c ∈ password, c.toNat < 128) :
    authRecover (loginToken userId password) = some (userId, password) := by
  have hascii : ∀ c ∈ userId ++ ':' :: password, c.toNat < 128 := by
    intro c hc
    rw [List.mem_append, List.mem_cons] at hc
    rcases hc with h1 | h2 | h3
    · exact hau c h1
    · rw [h2]; decide
    · exact hap c h3
  have hbytes : ∀ b ∈ strBytes (userId ++ ':' :: password), b < 256 := by
    intro b hb
    rw [strBytes, List.mem_map] at hb
    obtain ⟨c, hc, rfl⟩ := hb
    have := hascii c hc
    omega
  have hsplit : splitOnColon (asciiChars (b64DecodeChars (loginToken userId password))) =
      [userId, password] := by
    rw [loginToken, b64_roundtrip _ hbytes, asciiChars_strBytes _ hascii,
        splitOnColon_append userId password hcu, splitOnColon_no_colon password hcp]
  rw [authRecover, hsplit]
  simp [hu, hp]

/-- C10 witness: concrete instance of `loginToken_roundtrip` for
userId `u1` and password `pw`. -/
theorem loginToken_roundtrip_witness :
    ((['u', '1'] : List Char) ≠ []) ∧ ((['p', 'w'] : List Char) ≠ []) ∧
    (':' ∉ (['u', '1'] : List Char)) ∧ (':' ∉ (['p', 'w'] : List Char)) ∧
    (∀ c ∈ (['u', '1'] : List Char), c.toNat < 128) ∧
    (∀ c ∈ (['p', 'w'] : List Char), c.toNat < 128) ∧
    authRecover (loginToken ['u', '1'] ['p', 'w']) = some (['u', '1'], ['p', 'w']) :=
  ⟨by decide, by decide, by decide, by decide, by decide, by decide,
   loginToken_roundtrip ['u', '1'] ['p', 'w']
     (by decide) (by decide) (by decide) (by decide) (by decide) (by decide)⟩
